import Mathlib

/-!
Verification of the manifest-update scripts of the scoop-bucket repository.

The repository ships two variants of `scripts/update-manifest.js` (referred to
below as variant A and variant B).  Both are small Node.js programs that
read a JSON manifest, query the GitHub release API, pick a Windows asset,
download it to hash it, and rewrite a handful of manifest fields before
serialising the document back with two-space indentation and a trailing
newline.

This file gives a shallow embedding of both variants.  JSON values are an
inductive type, JavaScript strings are `String` (with character-list helpers
for the `String.prototype.replace`/`split` behaviour used by the scripts),
and the platform effects (https requests, the asset download, sha256, the
file system and `JSON.parse`) are supplied as explicit oracle inputs, so the
scripts become pure functions of their inputs.
-/

/-- JSON documents as produced by `JSON.parse`.  Object fields are kept in
property order, matching the enumeration order JavaScript uses for the
string-keyed properties that appear in manifests. -/
inductive Json where
  | null : Json
  | bool : Bool → Json
  | num : Int → Json
  | str : String → Json
  | arr : List Json → Json
  | obj : List (String × Json) → Json

/-- Reading a property: the first binding of the key, `none` for `undefined`. -/
def getKey : List (String × Json) → String → Option Json
  | [], _ => none
  | (k', v) :: fs, k => if k' = k then some v else getKey fs k

/-- JavaScript property assignment on an object: an existing key keeps its
position, a new key is appended at the end. -/
def setKey : List (String × Json) → String → Json → List (String × Json)
  | [], k, v => [(k, v)]
  | (k', v') :: fs, k, v =>
    if k' = k then (k, v) :: fs else (k', v') :: setKey fs k v

/-- JavaScript truthiness of a JSON value. -/
def truthy : Json → Bool
  | .null => false
  | .bool b => b
  | .num n => n != 0
  | .str s => s != ""
  | .arr _ => true
  | .obj _ => true

/-- Path lookup in a JSON document (`none` when the path walks off objects). -/
def getPath : Json → List String → Option Json
  | j, [] => some j
  | .obj fs, k :: ks =>
    match getKey fs k with
    | some v => getPath v ks
    | none => none
  | _, _ :: _ => none

/-- Index of the first occurrence of `pat` in a character list
(ECMA-262 `StringIndexOf`). -/
def firstOcc (pat : List Char) : List Char → Option Nat
  | [] => if pat.isPrefixOf ([] : List Char) then some 0 else none
  | c :: rest =>
    if pat.isPrefixOf (c :: rest) then some 0
    else (firstOcc pat rest).map (· + 1)

/-- Substring occurrence test. -/
def occursIn (pat s : List Char) : Bool := (firstOcc pat s).isSome

/-- `String.prototype.includes`. -/
def includes (s pat : String) : Bool := occursIn pat.toList s.toList

/-- The ECMA-262 `GetSubstitution` operation for a string search pattern
(no capture groups): inside the replacement, a double dollar sign yields
one dollar sign, a dollar sign before an ampersand yields the matched
substring, a dollar sign before a backquote yields the text preceding the
match and a dollar sign before a single quote the text following it; every
other dollar sequence (the scripts' constant `$version` included, and
`$1`..`$9` with no captures) is literal.  The backquote and single-quote
characters are written via `Char.ofNat` (code points 96 and 39). -/
def getSubstitution (matched preceding following : List Char) :
    List Char → List Char
  | [] => []
  | c :: rest =>
    if c = '$' then
      match rest with
      | [] => ['$']
      | d :: rest2 =>
        if d = '$' then '$' :: getSubstitution matched preceding following rest2
        else if d = '&' then
          matched ++ getSubstitution matched preceding following rest2
        else if d = Char.ofNat 96 then
          preceding ++ getSubstitution matched preceding following rest2
        else if d = Char.ofNat 39 then
          following ++ getSubstitution matched preceding following rest2
        else '$' :: d :: getSubstitution matched preceding following rest2
    else c :: getSubstitution matched preceding following rest

/-- `String.prototype.replace` with a string search pattern: locate the
first occurrence of `pat`, carry the text before and after it over
verbatim, and insert the replacement processed by `GetSubstitution`; when
the pattern does not occur, return the string unchanged. -/
def jsReplaceList (pat rep s : List Char) : List Char :=
  match firstOcc pat s with
  | none => s
  | some i =>
    s.take i ++ getSubstitution pat (s.take i) (s.drop (i + pat.length)) rep
      ++ s.drop (i + pat.length)

/-- `String.prototype.replace` lifted to `String`. -/
def jsReplace (s pat rep : String) : String :=
  String.mk (jsReplaceList pat.toList rep.toList s.toList)

/-- `String.prototype.split` on a single-character separator. -/
def splitOnChar (sep : Char) : List Char → List (List Char)
  | [] => [[]]
  | c :: rest =>
    let r := splitOnChar sep rest
    if c = sep then [] :: r
    else
      match r with
      | [] => [[c]]
      | g :: gs => (c :: g) :: gs

/-- `url.split("/").pop()`: the final path segment of a URL. -/
def lastSeg (url : String) : String :=
  String.mk ((splitOnChar '/' url.toList).getLastD [])

/-- `assetName.replace(newVersion, "$version")` applied to the final segment
of the asset URL (both variants, identical code). -/
def templateAssetName (assetUrl newVersion : String) : String :=
  jsReplace (lastSeg assetUrl) newVersion "$version"

/-- `releaseInfo.assetUrl.replace(assetName, templateAssetName)`. -/
def autoupdateUrl (assetUrl newVersion : String) : String :=
  jsReplace assetUrl (lastSeg assetUrl) (templateAssetName assetUrl newVersion)

/-- The `if (manifest.autoupdate) { ... }` block, identical in both variants.
A non-object `autoupdate` value either fails the truthiness test (null, "",
0, false) or is a primitive/array on which the property writes have no
effect on the serialised document, so only an object value is updated.
Likewise `autoupdate.hash && autoupdate.hash.url` only leads to a visible
write when `hash` is an object with a truthy `url` member. -/
def autoupdateHash (afs1 : List (String × Json)) (assetUrl : String) :
    List (String × Json) :=
  match getKey afs1 "hash" with
  | some (.obj hfs) =>
    match getKey hfs "url" with
    | some hu =>
      if truthy hu then
        setKey afs1 "hash" (.obj (setKey hfs "url" (.str (assetUrl ++ ".sha256"))))
      else afs1
    | none => afs1
  | _ => afs1

/-- Body of the autoupdate block: rewrite `autoupdate.url`, then the hash
URL when applicable. -/
def autoupdateInner (afs : List (String × Json)) (assetUrl newVersion : String) :
    List (String × Json) :=
  autoupdateHash (setKey afs "url" (.str (autoupdateUrl assetUrl newVersion))) assetUrl

/-- The autoupdate block applied to the whole manifest object. -/
def applyAutoupdateFields (fs : List (String × Json)) (assetUrl newVersion : String) :
    List (String × Json) :=
  match getKey fs "autoupdate" with
  | some (.obj afs) => setKey fs "autoupdate" (.obj (autoupdateInner afs assetUrl newVersion))
  | _ => fs

/-- Errors thrown inside the field-update block. -/
inductive UErr where
  | typeError : UErr

/-- Release data produced by variant A's `getReleaseInfo` (includes the
re-derived repository URL). -/
structure ReleaseInfo where
  version : String
  repoUrl : String
  releaseUrl : String
  assetUrl : String
  hash : String

/-- Release data produced by variant B's `getReleaseInfo` (no repo URL). -/
structure ReleaseInfoB where
  version : String
  releaseUrl : String
  assetUrl : String
  hash : String

/-- Variant A's field updates (lines 199-225): version, homepage, url,
`checkver.github`, hash, then the autoupdate block.  On a `null` manifest
the first assignment throws; on any other non-object manifest the property
writes are inert until `manifest.checkver.github = ...` throws a TypeError
(`manifest.checkver` is `undefined`).  When `checkver` is present but `null`
the nested assignment throws as well; a primitive or array `checkver`
swallows the write. -/
def updateFieldsA (m : Json) (newVersion : String) (ri : ReleaseInfo) : Except UErr Json :=
  match m with
  | .obj fs =>
    let fs1 := setKey fs "version" (.str newVersion)
    let fs2 := setKey fs1 "homepage" (.str ri.repoUrl)
    let fs3 := setKey fs2 "url" (.str ri.assetUrl)
    match getKey fs3 "checkver" with
    | none => .error .typeError
    | some .null => .error .typeError
    | some (.obj cfs) =>
      let fs4 := setKey fs3 "checkver" (.obj (setKey cfs "github" (.str ri.repoUrl)))
      let fs5 := setKey fs4 "hash" (.str ri.hash)
      .ok (.obj (applyAutoupdateFields fs5 ri.assetUrl newVersion))
    | some _ =>
      let fs5 := setKey fs3 "hash" (.str ri.hash)
      .ok (.obj (applyAutoupdateFields fs5 ri.assetUrl newVersion))
  | .null => .error .typeError
  | _ => .error .typeError

/-- Variant B's field updates (lines 407-426): version, url, hash, then the
autoupdate block.  There is no `checkver` write, so a non-null non-object
manifest survives unchanged. -/
def updateFieldsB (m : Json) (newVersion : String) (ri : ReleaseInfoB) : Except UErr Json :=
  match m with
  | .obj fs =>
    let fs1 := setKey fs "version" (.str newVersion)
    let fs2 := setKey fs1 "url" (.str ri.assetUrl)
    let fs3 := setKey fs2 "hash" (.str ri.hash)
    .ok (.obj (applyAutoupdateFields fs3 ri.assetUrl newVersion))
  | .null => .error .typeError
  | other => .ok other

/-- Hex digit used by `JSON.stringify`'s `\u00XX` escapes. -/
def hexDigit (n : Nat) : Char :=
  if n < 10 then Char.ofNat (48 + n) else Char.ofNat (87 + n)

/-- The character escapes of `JSON.stringify` for string data. -/
def escapeChar (c : Char) : List Char :=
  if c = '"' then ['\\', '"']
  else if c = '\\' then ['\\', '\\']
  else if c = Char.ofNat 8 then ['\\', 'b']
  else if c = Char.ofNat 9 then ['\\', 't']
  else if c = Char.ofNat 10 then ['\\', 'n']
  else if c = Char.ofNat 12 then ['\\', 'f']
  else if c = Char.ofNat 13 then ['\\', 'r']
  else if c.toNat < 32 then
    ['\\', 'u', '0', '0', hexDigit (c.toNat / 16), hexDigit (c.toNat % 16)]
  else [c]

/-- A JSON string token, quoted and escaped. -/
def quoteStr (s : String) : String :=
  "\"" ++ String.mk (s.toList.flatMap escapeChar) ++ "\""

/-- `n` spaces. -/
def indentStr (n : Nat) : String := String.mk (List.replicate n ' ')

/-- `JSON.stringify(value, null, 2)` at nesting depth `d`: members of a
non-empty object or array each sit on their own line, indented two further
spaces, and the closing bracket returns to the enclosing indentation. -/
def stringifyVal (d : Nat) : Json → String
  | .null => "null"
  | .bool b => if b then "true" else "false"
  | .num n => toString n
  | .str s => quoteStr s
  | .arr xs =>
    if xs.isEmpty then "[]"
    else
      "[\n" ++
        String.intercalate ",\n"
          (xs.attach.map (fun x => indentStr (2 * (d + 1)) ++ stringifyVal (d + 1) x.1)) ++
        "\n" ++ indentStr (2 * d) ++ "]"
  | .obj fs =>
    if fs.isEmpty then "\x7b\x7d"
    else
      "\x7b\n" ++
        String.intercalate ",\n"
          (fs.attach.map (fun f =>
            indentStr (2 * (d + 1)) ++ quoteStr f.1.1 ++ ": " ++ stringifyVal (d + 1) f.1.2)) ++
        "\n" ++ indentStr (2 * d) ++ "\x7d"
termination_by j => sizeOf j
decreasing_by
  · have := List.sizeOf_lt_of_mem x.2
    simp only [Json.arr.sizeOf_spec]
    omega
  · have h1 := List.sizeOf_lt_of_mem f.2
    have h2 : sizeOf f.1.2 < sizeOf f.1 := by
      obtain ⟨a, b⟩ := f.1
      simp
    simp only [Json.obj.sizeOf_spec]
    omega

/-- A release asset as returned by the GitHub API. -/
structure Asset where
  name : String
  browser_download_url : String

/-- The release object fields the scripts consume. -/
structure Release where
  html_url : String
  assets : List Asset

/-- Variant A's release lookup URL (line 90): the tag is used verbatim. -/
def releaseApiUrlA (owner repo version : String) : String :=
  "https://api.github.com/repos/" ++ owner ++ "/" ++ repo ++ "/releases/tags/" ++ version

/-- Variant B's release lookup URL (line 319): a literal `v` is prefixed to
the tag, and the `owner/repo` pair arrives as one combined argument. -/
def releaseApiUrlB (repo version : String) : String :=
  "https://api.github.com/repos/" ++ repo ++ "/releases/tags/v" ++ version

/-- Variant A's asset filter (lines 97-101): name contains `windows` and
either `amd64` or `x86_64`. -/
def isWindowsAmd64A (a : Asset) : Bool :=
  includes a.name "windows" && (includes a.name "amd64" || includes a.name "x86_64")

/-- Variant B's asset filter (lines 323-326): name contains `windows` and
`amd64`; an `x86_64`-only name is not accepted. -/
def isWindowsAmd64B (a : Asset) : Bool :=
  includes a.name "windows" && includes a.name "amd64"

/-- `release.assets.find(...)` in variant A: first matching entry. -/
def findWindowsAssetA (assets : List Asset) : Option Asset :=
  assets.find? isWindowsAmd64A

/-- `release.assets.find(...)` in variant B. -/
def findWindowsAssetB (assets : List Asset) : Option Asset :=
  assets.find? isWindowsAmd64B

/-- An HTTP response as seen by `downloadAsset`. -/
structure HttpResp where
  statusCode : Nat
  location : Option String
  body : List Nat

/-- Failure modes of `downloadAsset`. -/
inductive DlErr where
  | httpStatus : Nat → DlErr
  | outOfFuel : DlErr

/-- The redirect test of variant A's `downloadAsset` (lines 142-146): a 3xx
status whose `Location` header is present and non-empty (an empty header is
falsy in JavaScript). -/
def hasRedirect (r : HttpResp) : Bool :=
  decide (300 ≤ r.statusCode) && decide (r.statusCode < 400) &&
    (match r.location with
     | some l => l != ""
     | none => false)

/-- Variant A's `downloadAsset` (lines 138-168): follow redirects
recursively — the source has no depth bound, so the recursion is modelled
with explicit fuel, `outOfFuel` standing for the run that never
terminates — and fail on any non-200 terminal status. -/
def downloadAssetA (resp : String → HttpResp) : Nat → String → Except DlErr (List Nat)
  | 0, _ => .error .outOfFuel
  | fuel + 1, url =>
    if hasRedirect (resp url) then
      downloadAssetA resp fuel ((resp url).location.getD "")
    else if (resp url).statusCode ≠ 200 then .error (.httpStatus (resp url).statusCode)
    else .ok (resp url).body

/-- Variant B's `downloadAsset` (lines 359-386): no redirect handling at
all; any non-200 status — a redirect included — is a download failure. -/
def downloadAssetB (resp : String → HttpResp) (url : String) : Except DlErr (List Nat) :=
  if (resp url).statusCode ≠ 200 then .error (.httpStatus (resp url).statusCode)
  else .ok (resp url).body

/-- Resolver failures surfaced by `getReleaseInfo`. -/
inductive GriErr where
  | api : String → GriErr
  | assetNotFound : GriErr
  | download : DlErr → GriErr
  | repoMatchFailed : GriErr

/-- Variant A's repo-URL regular expression, tried at one start position.
The source builds it from the string literal `"https://github\.com/..."`
where `\.` collapses to a bare `.` (match any character), so the pattern is
`https://github` ⟨any char⟩ `com/` `[^/]+` `/` `[^/]+` with greedy
segments. -/
def matchRepoHere (s : List Char) : Option (List Char) :=
  if ("https://github".toList).isPrefixOf s then
    match s.drop ("https://github".toList.length) with
    | [] => none
    | dot :: r2 =>
      if ("com/".toList).isPrefixOf r2 then
        let r3 := r2.drop ("com/".toList.length)
        let seg1 := r3.takeWhile (fun c => c ≠ '/')
        if seg1.isEmpty then none
        else
          match r3.drop seg1.length with
          | '/' :: r4 =>
            let seg2 := r4.takeWhile (fun c => c ≠ '/')
            if seg2.isEmpty then none
            else some ("https://github".toList ++ [dot] ++ "com/".toList ++
                        seg1 ++ ['/'] ++ seg2)
          | _ => none
      else none
  else none

/-- `release.html_url.match(...)`: leftmost match of the pattern above. -/
def findRepoMatch : List Char → Option (List Char)
  | [] => none
  | c :: rest =>
    match matchRepoHere (c :: rest) with
    | some m => some m
    | none => findRepoMatch rest

/-- Variant A's `getReleaseInfo` (lines 83-133), as a function of the
request oracle `http`, the asset-download oracle `dl` and the hash oracle
`sha256`.  The second component records the URLs for which a download was
issued.  A failing repo-URL match (`match(...)` returning `null`, then
`[0]` throwing) is the `repoMatchFailed` outcome. -/
def getReleaseInfoA (owner repo version : String)
    (http : String → Except String Release)
    (dl : String → Except DlErr (List Nat))
    (sha256 : List Nat → String) :
    Except GriErr ReleaseInfo × List String :=
  match http (releaseApiUrlA owner repo version) with
  | .error e => (.error (.api e), [])
  | .ok release =>
    match findWindowsAssetA release.assets with
    | none => (.error .assetNotFound, [])
    | some windowsAsset =>
      let assetUrl := windowsAsset.browser_download_url
      match dl assetUrl with
      | .error e => (.error (.download e), [assetUrl])
      | .ok assetBuffer =>
        let hash := sha256 assetBuffer
        match findRepoMatch release.html_url.toList with
        | none => (.error .repoMatchFailed, [assetUrl])
        | some repoUrl =>
          (.ok { version := version, repoUrl := String.mk repoUrl,
                 releaseUrl := release.html_url, assetUrl := assetUrl,
                 hash := hash }, [assetUrl])

/-- Variant B's `getReleaseInfo` (lines 314-354): combined `owner/repo`
argument, `v`-prefixed tag, `amd64`-only filter, no repo-URL derivation. -/
def getReleaseInfoB (repo version : String)
    (http : String → Except String Release)
    (dl : String → Except DlErr (List Nat))
    (sha256 : List Nat → String) :
    Except GriErr ReleaseInfoB × List String :=
  match http (releaseApiUrlB repo version) with
  | .error e => (.error (.api e), [])
  | .ok release =>
    match findWindowsAssetB release.assets with
    | none => (.error .assetNotFound, [])
    | some windowsAsset =>
      let assetUrl := windowsAsset.browser_download_url
      match dl assetUrl with
      | .error e => (.error (.download e), [assetUrl])
      | .ok assetBuffer =>
        let hash := sha256 assetBuffer
        (.ok { version := version, releaseUrl := release.html_url,
               assetUrl := assetUrl, hash := hash }, [assetUrl])

/-- Observable outcome of one process run: the exit status and the content
written to the manifest path (`none` when the file is left untouched). -/
structure RunOutcome where
  exitCode : Nat
  written : Option String

/-- Variant A's `updateManifest` (lines 184-241).  `fileOk` is the
`fs.existsSync` oracle and `parsed` the outcome of `JSON.parse` on the
current file content (`none` when the content is not valid JSON).  Every
caught error exits 1 without writing; success serialises with two-space
indentation, appends a newline, writes, and exits 0. -/
def runUpdateA (fileOk : Bool) (parsed : Option Json) (owner repo newVersion : String)
    (http : String → Except String Release)
    (dl : String → Except DlErr (List Nat))
    (sha256 : List Nat → String) : RunOutcome :=
  match fileOk, parsed with
  | false, _ => ⟨1, none⟩
  | true, none => ⟨1, none⟩
  | true, some manifest =>
      match (getReleaseInfoA owner repo newVersion http dl sha256).1 with
      | .error _ => ⟨1, none⟩
      | .ok releaseInfo =>
        match updateFieldsA manifest newVersion releaseInfo with
        | .error _ => ⟨1, none⟩
        | .ok updated => ⟨0, some (stringifyVal 0 updated ++ "\n")⟩

/-- Variant B's `updateManifest` (lines 391-442); the success path falls off
the end of the script, exiting 0. -/
def runUpdateB (fileOk : Bool) (parsed : Option Json) (repo newVersion : String)
    (http : String → Except String Release)
    (dl : String → Except DlErr (List Nat))
    (sha256 : List Nat → String) : RunOutcome :=
  match fileOk, parsed with
  | false, _ => ⟨1, none⟩
  | true, none => ⟨1, none⟩
  | true, some manifest =>
      match (getReleaseInfoB repo newVersion http dl sha256).1 with
      | .error _ => ⟨1, none⟩
      | .ok releaseInfo =>
        match updateFieldsB manifest newVersion releaseInfo with
        | .error _ => ⟨1, none⟩
        | .ok updated => ⟨0, some (stringifyVal 0 updated ++ "\n")⟩

/-- Variant A's entry point (lines 19-28): exactly four positional
arguments, otherwise a usage message and exit status 5 before any file or
network activity. -/
def mainA (args : List String) (fileOk : Bool) (parsed : Option Json)
    (http : String → Except String Release)
    (dl : String → Except DlErr (List Nat))
    (sha256 : List Nat → String) : RunOutcome :=
  if args.length ≠ 4 then ⟨5, none⟩
  else
    match args with
    | [_, owner, repo, version] => runUpdateA fileOk parsed owner repo version http dl sha256
    | _ => ⟨5, none⟩

/-- Variant B's entry point (lines 261-268, 445): exactly four positional
arguments (`<manifest-file> <repo> <version> <run-id>`), otherwise exit
status 1; the run id is only echoed to the log. -/
def mainB (args : List String) (fileOk : Bool) (parsed : Option Json)
    (http : String → Except String Release)
    (dl : String → Except DlErr (List Nat))
    (sha256 : List Nat → String) : RunOutcome :=
  if args.length ≠ 4 then ⟨1, none⟩
  else
    match args with
    | [_, repo, version, _] => runUpdateB fileOk parsed repo version http dl sha256
    | _ => ⟨1, none⟩

/-- Neither path is a prefix of the other: reading or writing at one cannot
be observed at the other. -/
def pathIndep (a b : List String) : Bool :=
  !(a.isPrefixOf b) && !(b.isPrefixOf a)

theorem pathIndep_nil_right (a : List String) : pathIndep a [] = false := by
  cases a <;> simp [pathIndep, List.isPrefixOf]

theorem pathIndep_cons_same (a : String) (rest ks : List String) :
    pathIndep (a :: rest) (a :: ks) = pathIndep rest ks := by
  simp [pathIndep, List.isPrefixOf]

theorem getKey_setKey_self (fs : List (String × Json)) (k : String) (v : Json) :
    getKey (setKey fs k v) k = some v := by
  induction fs with
  | nil => simp [setKey, getKey]
  | cons a fs ih =>
    obtain ⟨k', v'⟩ := a
    by_cases h : k' = k
    · subst h
      simp [setKey, getKey]
    · simp [setKey, getKey, h, ih]

theorem getKey_setKey_ne (fs : List (String × Json)) (k k' : String) (v : Json)
    (h : k ≠ k') : getKey (setKey fs k v) k' = getKey fs k' := by
  induction fs with
  | nil => simp [setKey, getKey, h]
  | cons a fs ih =>
    obtain ⟨k'', v''⟩ := a
    by_cases h2 : k'' = k
    · subst h2
      simp [setKey, getKey, h]
    · simp only [setKey, if_neg h2, getKey, ih]

/-- A write at top-level key `k` is invisible along any path independent of
`[k]`. -/
theorem getPath_setKey (fs : List (String × Json)) (k : String) (v : Json)
    (p : List String) (h : pathIndep [k] p = true) :
    getPath (.obj (setKey fs k v)) p = getPath (.obj fs) p := by
  cases p with
  | nil => rw [pathIndep_nil_right] at h; cases h
  | cons k' ks =>
    by_cases he : k' = k
    · subst he
      rw [pathIndep_cons_same] at h
      simp [pathIndep, List.isPrefixOf] at h
    · simp only [getPath]
      rw [getKey_setKey_ne fs k k' v (fun hh => he hh.symm)]

theorem pathIndep_nil_left (b : List String) : pathIndep [] b = false := by
  simp [pathIndep, List.isPrefixOf]

/-- The hash step of the autoupdate block only writes below `hash.url`. -/
theorem getPath_autoupdateHash (afs1 : List (String × Json)) (assetUrl : String)
    (ks : List String) (h2 : pathIndep ["hash", "url"] ks = true) :
    getPath (.obj (autoupdateHash afs1 assetUrl)) ks = getPath (.obj afs1) ks := by
  cases ks with
  | nil => rw [pathIndep_nil_right] at h2; cases h2
  | cons u us =>
    unfold autoupdateHash
    cases hh : getKey afs1 "hash" with
    | none => rfl
    | some hv =>
      cases hv with
      | obj hfs =>
        cases hhu : getKey hfs "url" with
        | none => simp only [hhu]
        | some hu2 =>
          simp only [hhu]
          by_cases ht : truthy hu2 = true
          · rw [if_pos ht]
            by_cases huh : u = "hash"
            · subst huh
              rw [pathIndep_cons_same] at h2
              simp only [getPath, getKey_setKey_self, hh]
              exact getPath_setKey hfs "url" _ us h2
            · simp only [getPath]
              rw [getKey_setKey_ne _ _ _ _ (fun he => huh he.symm)]
          · rw [if_neg ht]
      | null => rfl
      | bool b => rfl
      | num n => rfl
      | str s => rfl
      | arr xs => rfl

/-- The autoupdate inner block only writes `url` and `hash.url`. -/
theorem getPath_autoupdateInner (afs : List (String × Json)) (assetUrl newVersion : String)
    (ks : List String)
    (h1 : pathIndep ["url"] ks = true)
    (h2 : pathIndep ["hash", "url"] ks = true) :
    getPath (.obj (autoupdateInner afs assetUrl newVersion)) ks = getPath (.obj afs) ks := by
  unfold autoupdateInner
  rw [getPath_autoupdateHash _ _ _ h2]
  exact getPath_setKey afs "url" _ ks h1

/-- The autoupdate block only writes below the `autoupdate` key. -/
theorem getPath_applyAutoupdate (fs : List (String × Json)) (assetUrl newVersion : String)
    (p : List String)
    (h1 : pathIndep ["autoupdate", "url"] p = true)
    (h2 : pathIndep ["autoupdate", "hash", "url"] p = true) :
    getPath (.obj (applyAutoupdateFields fs assetUrl newVersion)) p = getPath (.obj fs) p := by
  unfold applyAutoupdateFields
  cases hau : getKey fs "autoupdate" with
  | none => rfl
  | some au =>
    cases au with
    | obj afs =>
      cases p with
      | nil => rw [pathIndep_nil_right] at h1; cases h1
      | cons k ks =>
        by_cases hk : k = "autoupdate"
        · subst hk
          rw [pathIndep_cons_same] at h1 h2
          simp only [getPath, getKey_setKey_self, hau]
          exact getPath_autoupdateInner afs assetUrl newVersion ks h1 h2
        · simp only [getPath]
          rw [getKey_setKey_ne _ _ _ _ (fun he => hk he.symm)]
    | null => rfl
    | bool b => rfl
    | num n => rfl
    | str s => rfl
    | arr xs => rfl

/-- The `manifest.checkver.github` write only changes that one path. -/
theorem getPath_setCheckver (fs3 cfs : List (String × Json)) (g : Json) (p : List String)
    (hck : getKey fs3 "checkver" = some (.obj cfs))
    (h : pathIndep ["checkver", "github"] p = true) :
    getPath (.obj (setKey fs3 "checkver" (.obj (setKey cfs "github" g)))) p
      = getPath (.obj fs3) p := by
  cases p with
  | nil => rw [pathIndep_nil_right] at h; cases h
  | cons k ks =>
    by_cases hk : k = "checkver"
    · subst hk
      rw [pathIndep_cons_same] at h
      simp only [getPath, getKey_setKey_self, hck]
      exact getPath_setKey cfs "github" g ks h
    · simp only [getPath]
      rw [getKey_setKey_ne _ _ _ _ (fun he => hk he.symm)]

/-- The set of paths variant A's updater may write. -/
def pathsA : List (List String) :=
  [["version"], ["homepage"], ["url"], ["checkver", "github"], ["hash"],
   ["autoupdate", "url"], ["autoupdate", "hash", "url"]]

/-- The set of paths variant B's updater may write. -/
def pathsB : List (List String) :=
  [["version"], ["url"], ["hash"], ["autoupdate", "url"], ["autoupdate", "hash", "url"]]

/-- `p` is independent of every path in `paths`. -/
def untouchedBy (paths : List (List String)) (p : List String) : Bool :=
  paths.all (fun mp => pathIndep mp p)

/-- Frame property of variant A's field updates: any path independent of
the written ones reads the same before and after. -/
theorem updateFieldsA_frame (m : Json) (v : String) (ri : ReleaseInfo) (m' : Json)
    (h : updateFieldsA m v ri = .ok m') (p : List String)
    (hp : untouchedBy pathsA p = true) : getPath m' p = getPath m p := by
  simp only [untouchedBy, pathsA, List.all, Bool.and_eq_true] at hp
  obtain ⟨hver, hhome, hurl, hcv, hhash, hau1, hau2, -⟩ := hp
  cases m with
  | obj fs =>
    simp only [updateFieldsA] at h
    cases hck : getKey (setKey (setKey (setKey fs "version" (.str v)) "homepage"
        (.str ri.repoUrl)) "url" (.str ri.assetUrl)) "checkver" with
    | none => simp only [hck] at h; exact Except.noConfusion h
    | some cv =>
      cases cv with
      | null => simp only [hck] at h; exact Except.noConfusion h
      | obj cfs =>
        simp only [hck] at h
        injection h with h2
        subst h2
        rw [getPath_applyAutoupdate _ _ _ p hau1 hau2,
            getPath_setKey _ "hash" _ p hhash,
            getPath_setCheckver _ cfs _ p hck hcv,
            getPath_setKey _ "url" _ p hurl,
            getPath_setKey _ "homepage" _ p hhome,
            getPath_setKey _ "version" _ p hver]
      | bool b =>
        simp only [hck] at h
        injection h with h2
        subst h2
        rw [getPath_applyAutoupdate _ _ _ p hau1 hau2,
            getPath_setKey _ "hash" _ p hhash,
            getPath_setKey _ "url" _ p hurl,
            getPath_setKey _ "homepage" _ p hhome,
            getPath_setKey _ "version" _ p hver]
      | num n =>
        simp only [hck] at h
        injection h with h2
        subst h2
        rw [getPath_applyAutoupdate _ _ _ p hau1 hau2,
            getPath_setKey _ "hash" _ p hhash,
            getPath_setKey _ "url" _ p hurl,
            getPath_setKey _ "homepage" _ p hhome,
            getPath_setKey _ "version" _ p hver]
      | str s =>
        simp only [hck] at h
        injection h with h2
        subst h2
        rw [getPath_applyAutoupdate _ _ _ p hau1 hau2,
            getPath_setKey _ "hash" _ p hhash,
            getPath_setKey _ "url" _ p hurl,
            getPath_setKey _ "homepage" _ p hhome,
            getPath_setKey _ "version" _ p hver]
      | arr xs =>
        simp only [hck] at h
        injection h with h2
        subst h2
        rw [getPath_applyAutoupdate _ _ _ p hau1 hau2,
            getPath_setKey _ "hash" _ p hhash,
            getPath_setKey _ "url" _ p hurl,
            getPath_setKey _ "homepage" _ p hhome,
            getPath_setKey _ "version" _ p hver]
  | null => exact Except.noConfusion h
  | bool b => exact Except.noConfusion h
  | num n => exact Except.noConfusion h
  | str s => exact Except.noConfusion h
  | arr xs => exact Except.noConfusion h

/-- Frame property of variant B's field updates. -/
theorem updateFieldsB_frame (m : Json) (v : String) (ri : ReleaseInfoB) (m' : Json)
    (h : updateFieldsB m v ri = .ok m') (p : List String)
    (hp : untouchedBy pathsB p = true) : getPath m' p = getPath m p := by
  simp only [untouchedBy, pathsB, List.all, Bool.and_eq_true] at hp
  obtain ⟨hver, hurl, hhash, hau1, hau2, -⟩ := hp
  cases m with
  | obj fs =>
    simp only [updateFieldsB] at h
    injection h with h2
    subst h2
    rw [getPath_applyAutoupdate _ _ _ p hau1 hau2,
        getPath_setKey _ "hash" _ p hhash,
        getPath_setKey _ "url" _ p hurl,
        getPath_setKey _ "version" _ p hver]
  | null => exact Except.noConfusion h
  | bool b => injection h with h2; subst h2; rfl
  | num n => injection h with h2; subst h2; rfl
  | str s => injection h with h2; subst h2; rfl
  | arr xs => injection h with h2; subst h2; rfl

/-- The index returned by `firstOcc` is the least position at which the
pattern matches: the pattern is a prefix of the suffix starting there, and
of no earlier suffix. -/
theorem firstOcc_least (pat s : List Char) (i : Nat)
    (h : firstOcc pat s = some i) :
    pat.isPrefixOf (s.drop i) = true ∧
      ∀ j, j < i → pat.isPrefixOf (s.drop j) = false := by
  induction s generalizing i with
  | nil =>
    simp only [firstOcc] at h
    by_cases hp : pat.isPrefixOf ([] : List Char) = true
    · rw [if_pos hp] at h
      injection h with h2
      subst h2
      exact ⟨hp, fun j hj => absurd hj (Nat.not_lt_zero j)⟩
    · rw [if_neg hp] at h
      cases h
  | cons c rest ih =>
    simp only [firstOcc] at h
    by_cases hp : pat.isPrefixOf (c :: rest) = true
    · rw [if_pos hp] at h
      injection h with h2
      subst h2
      exact ⟨hp, fun j hj => absurd hj (Nat.not_lt_zero j)⟩
    · rw [if_neg hp] at h
      cases hf : firstOcc pat rest with
      | none => rw [hf] at h; simp at h
      | some j0 =>
        rw [hf] at h
        simp only [Option.map_some'] at h
        injection h with h2
        subst h2
        obtain ⟨h1, h2⟩ := ih j0 hf
        refine ⟨by rw [List.drop_succ_cons]; exact h1, ?_⟩
        intro j hj
        cases j with
        | zero =>
          rw [List.drop_zero]
          exact Bool.eq_false_iff.mpr hp
        | succ j' =>
          rw [List.drop_succ_cons]
          exact h2 j' (by omega)

/-- A replacement string without a dollar sign passes through
`GetSubstitution` verbatim. -/
theorem getSubstitution_no_dollar (matched preceding following : List Char) :
    ∀ rep : List Char, '$' ∉ rep →
    getSubstitution matched preceding following rep = rep := by
  intro rep
  induction rep with
  | nil => intro h; rfl
  | cons c rest ih =>
    intro h
    simp only [List.mem_cons, not_or] at h
    obtain ⟨hc, hrest⟩ := h
    cases rest with
    | nil =>
      rw [getSubstitution.eq_2, if_neg (fun he => hc he.symm), getSubstitution.eq_1]
    | cons d rest2 =>
      rw [getSubstitution.eq_3, if_neg (fun he => hc he.symm), ih hrest]

/-- The autoupdate block never touches top-level keys other than
`autoupdate`. -/
theorem getKey_applyAutoupdate_ne (fs : List (String × Json)) (assetUrl newVersion : String)
    (k : String) (hk : k ≠ "autoupdate") :
    getKey (applyAutoupdateFields fs assetUrl newVersion) k = getKey fs k := by
  unfold applyAutoupdateFields
  cases hau : getKey fs "autoupdate" with
  | none => rfl
  | some au =>
    cases au with
    | obj afs => rw [getKey_setKey_ne _ _ _ _ (fun he => hk he.symm)]
    | null => rfl
    | bool b => rfl
    | num n => rfl
    | str s => rfl
    | arr xs => rfl

/-- A failing API request makes variant A's resolver fail without any
download. -/
theorem griA_api_error (owner repo v : String) (http : String → Except String Release)
    (dl : String → Except DlErr (List Nat)) (sha256 : List Nat → String) (e : String)
    (h : http (releaseApiUrlA owner repo v) = .error e) :
    getReleaseInfoA owner repo v http dl sha256 = (.error (.api e), []) := by
  simp only [getReleaseInfoA, h]

/-- No matching asset makes variant A's resolver fail without any
download. -/
theorem griA_no_asset (owner repo v : String) (http : String → Except String Release)
    (dl : String → Except DlErr (List Nat)) (sha256 : List Nat → String) (rel : Release)
    (h : http (releaseApiUrlA owner repo v) = .ok rel)
    (h2 : findWindowsAssetA rel.assets = none) :
    getReleaseInfoA owner repo v http dl sha256 = (.error .assetNotFound, []) := by
  simp only [getReleaseInfoA, h, h2]

/-- A failing download surfaces as a download error in variant A. -/
theorem griA_dl_error (owner repo v : String) (http : String → Except String Release)
    (dl : String → Except DlErr (List Nat)) (sha256 : List Nat → String) (rel : Release)
    (a : Asset) (e : DlErr)
    (h : http (releaseApiUrlA owner repo v) = .ok rel)
    (h2 : findWindowsAssetA rel.assets = some a)
    (h3 : dl a.browser_download_url = .error e) :
    getReleaseInfoA owner repo v http dl sha256
      = (.error (.download e), [a.browser_download_url]) := by
  simp only [getReleaseInfoA, h, h2, h3]

/-- Once an asset is chosen, variant A downloads exactly that asset's URL. -/
theorem griA_downloads (owner repo v : String) (http : String → Except String Release)
    (dl : String → Except DlErr (List Nat)) (sha256 : List Nat → String) (rel : Release)
    (a : Asset)
    (h : http (releaseApiUrlA owner repo v) = .ok rel)
    (h2 : findWindowsAssetA rel.assets = some a) :
    (getReleaseInfoA owner repo v http dl sha256).2 = [a.browser_download_url] := by
  simp only [getReleaseInfoA, h, h2]
  cases hdl : dl a.browser_download_url with
  | error e => rfl
  | ok buf =>
    cases hm : findRepoMatch rel.html_url.toList with
    | none => rfl
    | some ru => rfl

/-- A failing API request makes variant B's resolver fail without any
download. -/
theorem griB_api_error (repo v : String) (http : String → Except String Release)
    (dl : String → Except DlErr (List Nat)) (sha256 : List Nat → String) (e : String)
    (h : http (releaseApiUrlB repo v) = .error e) :
    getReleaseInfoB repo v http dl sha256 = (.error (.api e), []) := by
  simp only [getReleaseInfoB, h]

/-- No matching asset makes variant B's resolver fail without any
download. -/
theorem griB_no_asset (repo v : String) (http : String → Except String Release)
    (dl : String → Except DlErr (List Nat)) (sha256 : List Nat → String) (rel : Release)
    (h : http (releaseApiUrlB repo v) = .ok rel)
    (h2 : findWindowsAssetB rel.assets = none) :
    getReleaseInfoB repo v http dl sha256 = (.error .assetNotFound, []) := by
  simp only [getReleaseInfoB, h, h2]

/-- A failing download surfaces as a download error in variant B. -/
theorem griB_dl_error (repo v : String) (http : String → Except String Release)
    (dl : String → Except DlErr (List Nat)) (sha256 : List Nat → String) (rel : Release)
    (a : Asset) (e : DlErr)
    (h : http (releaseApiUrlB repo v) = .ok rel)
    (h2 : findWindowsAssetB rel.assets = some a)
    (h3 : dl a.browser_download_url = .error e) :
    getReleaseInfoB repo v http dl sha256
      = (.error (.download e), [a.browser_download_url]) := by
  simp only [getReleaseInfoB, h, h2, h3]

/-- Any resolver failure aborts variant A's run with exit 1 and no write. -/
theorem runUpdateA_gri_error (fileOk : Bool) (parsed : Option Json)
    (owner repo v : String) (http : String → Except String Release)
    (dl : String → Except DlErr (List Nat)) (sha256 : List Nat → String) (e : GriErr)
    (h : (getReleaseInfoA owner repo v http dl sha256).1 = .error e) :
    runUpdateA fileOk parsed owner repo v http dl sha256 = ⟨1, none⟩ := by
  cases fileOk with
  | false => rfl
  | true =>
    cases parsed with
    | none => rfl
    | some m => simp only [runUpdateA, h]

/-- Any resolver failure aborts variant B's run with exit 1 and no write. -/
theorem runUpdateB_gri_error (fileOk : Bool) (parsed : Option Json)
    (repo v : String) (http : String → Except String Release)
    (dl : String → Except DlErr (List Nat)) (sha256 : List Nat → String) (e : GriErr)
    (h : (getReleaseInfoB repo v http dl sha256).1 = .error e) :
    runUpdateB fileOk parsed repo v http dl sha256 = ⟨1, none⟩ := by
  cases fileOk with
  | false => rfl
  | true =>
    cases parsed with
    | none => rfl
    | some m => simp only [runUpdateB, h]

/-- A release whose one asset is Linux-only (the spec's own example). -/
def exReleaseLinux : Release :=
  { html_url := "https://github.com/o/r/releases/tag/1.0",
    assets := [{ name := "app-linux-amd64.tar.gz",
                 browser_download_url := "https://github.com/o/r/releases/download/1.0/app-linux-amd64.tar.gz" }] }

/-- An x86_64-named Windows asset. -/
def exAssetX86 : Asset :=
  { name := "app-windows-x86_64.zip",
    browser_download_url := "https://github.com/o/r/releases/download/1.0/app-windows-x86_64.zip" }

/-- A release whose one asset is the x86_64-named Windows asset. -/
def exReleaseX86 : Release :=
  { html_url := "https://github.com/o/r/releases/tag/1.0", assets := [exAssetX86] }

/-- Request oracle answering every URL with the same release. -/
def httpConst (rel : Release) : String → Except String Release := fun _ => .ok rel

/-- Request oracle failing every URL. -/
def httpFail : String → Except String Release := fun _ => .error "network error"

/-- Download oracle answering every URL with the same bytes. -/
def dlConst (bytes : List Nat) : String → Except DlErr (List Nat) := fun _ => .ok bytes

/-- Hash oracle returning a fixed digest. -/
def shaConst (d : String) : List Nat → String := fun _ => d

/-- Claim C7: every failing updater run — manifest path missing, manifest not
valid JSON, API/network failure, no matching asset, or download failure —
exits with status 1 (nonzero) and writes nothing to the manifest file, in
both variants; in particular a non-JSON input (a `none` parse) causes a
parse failure with exit 1 and no write. -/
theorem c7_failure_no_write :
    (∀ parsed owner repo v http dl sha,
        runUpdateA false parsed owner repo v http dl sha = ⟨1, none⟩)
  ∧ (∀ fileOk owner repo v http dl sha,
        runUpdateA fileOk none owner repo v http dl sha = ⟨1, none⟩)
  ∧ (∀ fileOk parsed owner repo v http dl sha e,
        http (releaseApiUrlA owner repo v) = .error e →
        runUpdateA fileOk parsed owner repo v http dl sha = ⟨1, none⟩)
  ∧ (∀ fileOk parsed owner repo v http dl sha rel,
        http (releaseApiUrlA owner repo v) = .ok rel →
        findWindowsAssetA rel.assets = none →
        runUpdateA fileOk parsed owner repo v http dl sha = ⟨1, none⟩)
  ∧ (∀ fileOk parsed owner repo v http dl sha rel a e,
        http (releaseApiUrlA owner repo v) = .ok rel →
        findWindowsAssetA rel.assets = some a →
        dl a.browser_download_url = .error e →
        runUpdateA fileOk parsed owner repo v http dl sha = ⟨1, none⟩)
  ∧ (∀ parsed repo v http dl sha,
        runUpdateB false parsed repo v http dl sha = ⟨1, none⟩)
  ∧ (∀ fileOk repo v http dl sha,
        runUpdateB fileOk none repo v http dl sha = ⟨1, none⟩)
  ∧ (∀ fileOk parsed repo v http dl sha e,
        http (releaseApiUrlB repo v) = .error e →
        runUpdateB fileOk parsed repo v http dl sha = ⟨1, none⟩)
  ∧ (∀ fileOk parsed repo v http dl sha rel,
        http (releaseApiUrlB repo v) = .ok rel →
        findWindowsAssetB rel.assets = none →
        runUpdateB fileOk parsed repo v http dl sha = ⟨1, none⟩)
  ∧ (∀ fileOk parsed repo v http dl sha rel a e,
        http (releaseApiUrlB repo v) = .ok rel →
        findWindowsAssetB rel.assets = some a →
        dl a.browser_download_url = .error e →
        runUpdateB fileOk parsed repo v http dl sha = ⟨1, none⟩) := by
  refine ⟨?_, ?_, ?_, ?_, ?_, ?_, ?_, ?_, ?_, ?_⟩
  · intro parsed owner repo v http dl sha
    rfl
  · intro fileOk owner repo v http dl sha
    cases fileOk <;> rfl
  · intro fileOk parsed owner repo v http dl sha e h
    exact runUpdateA_gri_error _ _ _ _ _ _ _ _ (.api e)
      (by rw [griA_api_error _ _ _ _ _ _ e h])
  · intro fileOk parsed owner repo v http dl sha rel h h2
    exact runUpdateA_gri_error _ _ _ _ _ _ _ _ .assetNotFound
      (by rw [griA_no_asset _ _ _ _ _ _ rel h h2])
  · intro fileOk parsed owner repo v http dl sha rel a e h h2 h3
    exact runUpdateA_gri_error _ _ _ _ _ _ _ _ (.download e)
      (by rw [griA_dl_error _ _ _ _ _ _ rel a e h h2 h3])
  · intro parsed repo v http dl sha
    rfl
  · intro fileOk repo v http dl sha
    cases fileOk <;> rfl
  · intro fileOk parsed repo v http dl sha e h
    exact runUpdateB_gri_error _ _ _ _ _ _ _ (.api e)
      (by rw [griB_api_error _ _ _ _ _ e h])
  · intro fileOk parsed repo v http dl sha rel h h2
    exact runUpdateB_gri_error _ _ _ _ _ _ _ .assetNotFound
      (by rw [griB_no_asset _ _ _ _ _ rel h h2])
  · intro fileOk parsed repo v http dl sha rel a e h h2 h3
    exact runUpdateB_gri_error _ _ _ _ _ _ _ (.download e)
      (by rw [griB_dl_error _ _ _ _ _ rel a e h h2 h3])

/-- Witness for C7: a concrete run against a failing request oracle exits 1
without writing. -/
theorem c7_failure_no_write_witness :
    runUpdateA true (some .null) "o" "r" "1.0" httpFail (dlConst []) (shaConst "d")
      = ⟨1, none⟩ :=
  c7_failure_no_write.2.2.1 true (some .null) "o" "r" "1.0" httpFail (dlConst [])
    (shaConst "d") "network error" rfl

/-- The argument list of the spec's claimed 5-argument pre-resolved
invocation. -/
def args5 : List String :=
  ["bucket/app.json", "1.0.0", "https://github.com/o/r/releases/tag/1.0.0",
   "https://github.com/o/r/releases/download/1.0.0/app-windows-amd64.zip", "abcd"]

/-- Claim C8 counterexample: no variant accepts five positional arguments.  The
claimed pre-resolved 5-argument form is rejected by both entry points
(status 5 in variant A, status 1 in variant B) — both variants require
exactly four arguments. -/
theorem c8_counterexample :
    args5.length = 5 ∧
    mainA args5 true none httpFail (dlConst []) (shaConst "d") = ⟨5, none⟩ ∧
    mainB args5 true none httpFail (dlConst []) (shaConst "d") = ⟨1, none⟩ :=
  ⟨rfl, rfl, rfl⟩

/-- Claim C8 amended: both variants accept exactly four positional arguments
(variant A `<manifest-path> <owner> <repo> <version>`, variant B
`<manifest-path> <repo> <version> <run-id>`); any other argument count
prints usage and exits with status 5 (variant A) or 1 (variant B) without
writing the manifest file. -/
theorem c8_arity :
    (∀ args fileOk parsed http dl sha, args.length ≠ 4 →
        mainA args fileOk parsed http dl sha = ⟨5, none⟩)
  ∧ (∀ args fileOk parsed http dl sha, args.length ≠ 4 →
        mainB args fileOk parsed http dl sha = ⟨1, none⟩) := by
  constructor
  · intro args fileOk parsed http dl sha h
    simp only [mainA, if_pos h]
  · intro args fileOk parsed http dl sha h
    simp only [mainB, if_pos h]

/-- Witness for C8: the 5-argument list is rejected by both variants. -/
theorem c8_arity_witness :
    mainA args5 true none httpFail (dlConst []) (shaConst "d") = ⟨5, none⟩ ∧
    mainB args5 true none httpFail (dlConst []) (shaConst "d") = ⟨1, none⟩ :=
  ⟨c8_arity.1 args5 true none httpFail (dlConst []) (shaConst "d") (by decide),
   c8_arity.2 args5 true none httpFail (dlConst []) (shaConst "d") (by decide)⟩

/-- Claim C5 counterexample: variant B does not use the tag verbatim — it
prefixes a literal `v`, so the request URL differs from the claimed
`/repos/{owner}/{repo}/releases/tags/{version}` endpoint. -/
theorem c5_counterexample :
    releaseApiUrlB "o/r" "1.2.3" = "https://api.github.com/repos/o/r/releases/tags/v1.2.3" ∧
    releaseApiUrlB "o/r" "1.2.3" ≠ "https://api.github.com/repos/o/r/releases/tags/1.2.3" :=
  ⟨rfl, by decide⟩

/-- Claim C5 amended: variant A requests
`/repos/{owner}/{repo}/releases/tags/{version}` with the tag exactly as
supplied; variant B requests `/repos/{repo}/releases/tags/v{version}`,
prefixing a literal `v` to the supplied tag.  In both variants the request
oracle is consulted only at that one URL. -/
theorem c5_request_url :
    (∀ owner repo version : String,
        releaseApiUrlA owner repo version =
          "https://api.github.com/repos/" ++ owner ++ "/" ++ repo
            ++ "/releases/tags/" ++ version)
  ∧ (∀ repo version : String,
        releaseApiUrlB repo version =
          "https://api.github.com/repos/" ++ repo ++ "/releases/tags/"
            ++ ("v" ++ version))
  ∧ (∀ owner repo version http http2 dl sha,
        http (releaseApiUrlA owner repo version)
            = http2 (releaseApiUrlA owner repo version) →
        getReleaseInfoA owner repo version http dl sha
          = getReleaseInfoA owner repo version http2 dl sha)
  ∧ (∀ repo version http http2 dl sha,
        http (releaseApiUrlB repo version) = http2 (releaseApiUrlB repo version) →
        getReleaseInfoB repo version http dl sha
          = getReleaseInfoB repo version http2 dl sha) := by
  refine ⟨fun owner repo version => rfl, ?_, ?_, ?_⟩
  · intro repo version
    show "https://api.github.com/repos/" ++ repo ++ "/releases/tags/v" ++ version = _
    rw [show ("/releases/tags/v" : String) = "/releases/tags/" ++ "v" from rfl,
        ← String.append_assoc, String.append_assoc]
  · intro owner repo version http http2 dl sha h
    simp only [getReleaseInfoA, h]
  · intro repo version http http2 dl sha h
    simp only [getReleaseInfoB, h]

/-- Witness for C5: the oracle-locality conjunct at a concrete input. -/
theorem c5_request_url_witness :
    getReleaseInfoB "o/r" "1.0" (httpConst exReleaseLinux) (dlConst []) (shaConst "d")
      = getReleaseInfoB "o/r" "1.0"
          (fun u => if u = releaseApiUrlB "o/r" "1.0" then .ok exReleaseLinux
                    else .error "other")
          (dlConst []) (shaConst "d") :=
  c5_request_url.2.2.2 "o/r" "1.0" (httpConst exReleaseLinux)
    (fun u => if u = releaseApiUrlB "o/r" "1.0" then .ok exReleaseLinux else .error "other")
    (dlConst []) (shaConst "d") (by rfl)

/-- A responder whose first URL answers 302 with a Location and whose
redirect target answers 200. -/
def exResp : String → HttpResp := fun u =>
  if u = "https://start" then { statusCode := 302, location := some "https://target", body := [] }
  else { statusCode := 200, location := none, body := [7, 7] }

/-- Claim C6 counterexample: on a 3xx response with a Location header, variant
B's `downloadAsset` does not follow the redirect — it fails with a
download error (HTTP 302), although variant A following the redirect would
succeed. -/
theorem c6_counterexample :
    hasRedirect (exResp "https://start") = true ∧
    downloadAssetB exResp "https://start" = .error (.httpStatus 302) ∧
    downloadAssetA exResp 2 "https://start" = .ok [7, 7] :=
  ⟨rfl, rfl, rfl⟩

/-- Claim C6 amended: variant A follows a 3xx response carrying a non-empty
Location recursively (one recursive call per hop, with no depth bound in
the source — modelled by the fuel argument) and fails with a download
error on any non-200 terminal status; variant B performs no redirect
handling at all and fails with a download error on any non-200 status,
redirects included. -/
theorem c6_redirects :
    (∀ (resp : String → HttpResp) (fuel : Nat) (url : String),
        hasRedirect (resp url) = true →
        downloadAssetA resp (fuel + 1) url
          = downloadAssetA resp fuel ((resp url).location.getD ""))
  ∧ (∀ (resp : String → HttpResp) (fuel : Nat) (url : String),
        hasRedirect (resp url) = false → (resp url).statusCode ≠ 200 →
        downloadAssetA resp (fuel + 1) url
          = .error (.httpStatus (resp url).statusCode))
  ∧ (∀ (resp : String → HttpResp) (fuel : Nat) (url : String),
        hasRedirect (resp url) = false → (resp url).statusCode = 200 →
        downloadAssetA resp (fuel + 1) url = .ok (resp url).body)
  ∧ (∀ (resp : String → HttpResp) (url : String),
        (resp url).statusCode ≠ 200 →
        downloadAssetB resp url = .error (.httpStatus (resp url).statusCode)) := by
  refine ⟨?_, ?_, ?_, ?_⟩
  · intro resp fuel url h
    simp only [downloadAssetA, if_pos h]
  · intro resp fuel url h h2
    simp only [downloadAssetA]
    rw [if_neg (by rw [h]; exact Bool.false_ne_true), if_pos h2]
  · intro resp fuel url h h2
    simp only [downloadAssetA]
    rw [if_neg (by rw [h]; exact Bool.false_ne_true), if_neg (fun hne => hne h2)]
  · intro resp url h
    simp only [downloadAssetB, if_pos h]

/-- Witness for C6: one concrete redirect hop is followed by variant A. -/
theorem c6_redirects_witness :
    downloadAssetA exResp 2 "https://start"
      = downloadAssetA exResp 1 ((exResp "https://start").location.getD "") :=
  c6_redirects.1 exResp 1 "https://start" rfl

/-- Once an asset is chosen, variant B downloads exactly that asset's URL. -/
theorem griB_downloads (repo v : String) (http : String → Except String Release)
    (dl : String → Except DlErr (List Nat)) (sha256 : List Nat → String) (rel : Release)
    (a : Asset)
    (h : http (releaseApiUrlB repo v) = .ok rel)
    (h2 : findWindowsAssetB rel.assets = some a) :
    (getReleaseInfoB repo v http dl sha256).2 = [a.browser_download_url] := by
  simp only [getReleaseInfoB, h, h2]
  cases hdl : dl a.browser_download_url with
  | error e => rfl
  | ok buf => rfl

/-- Claim C2 counterexample: the asset name `app-windows-x86_64.zip` satisfies
the claim's predicate (contains `windows` and `x86_64`), yet variant B's
resolver rejects it — its filter requires the literal `amd64` — failing
with the asset-not-found error and issuing no download. -/
theorem c2_counterexample :
    isWindowsAmd64A exAssetX86 = true ∧
    getReleaseInfoB "o/r" "1.0" (httpConst exReleaseX86) (dlConst [0]) (shaConst "d")
      = (.error .assetNotFound, []) :=
  ⟨rfl, rfl⟩

/-- Claim C2 amended: variant A chooses the first asset whose name contains
`windows` and `amd64` or `x86_64`; variant B chooses the first asset whose
name contains `windows` and `amd64` (an `x86_64`-only name is rejected).
In either variant, when no asset satisfies that variant's predicate the
resolver fails with the asset-not-found error and no download is issued;
when an asset is chosen, exactly its URL is downloaded. -/
theorem c2_asset_selection :
    (∀ (assets : List Asset) (a : Asset), findWindowsAssetA assets = some a →
        isWindowsAmd64A a = true ∧ ∃ i, ∃ hi : i < assets.length, assets[i] = a ∧
          ∀ j (hj : j < i), isWindowsAmd64A assets[j] = false)
  ∧ (∀ assets : List Asset, (∀ a ∈ assets, isWindowsAmd64A a = false) →
        findWindowsAssetA assets = none)
  ∧ (∀ (assets : List Asset) (a : Asset), findWindowsAssetB assets = some a →
        isWindowsAmd64B a = true ∧ ∃ i, ∃ hi : i < assets.length, assets[i] = a ∧
          ∀ j (hj : j < i), isWindowsAmd64B assets[j] = false)
  ∧ (∀ assets : List Asset, (∀ a ∈ assets, isWindowsAmd64B a = false) →
        findWindowsAssetB assets = none)
  ∧ (∀ owner repo v http dl sha (rel : Release),
        http (releaseApiUrlA owner repo v) = .ok rel →
        findWindowsAssetA rel.assets = none →
        getReleaseInfoA owner repo v http dl sha = (.error .assetNotFound, []))
  ∧ (∀ repo v http dl sha (rel : Release),
        http (releaseApiUrlB repo v) = .ok rel →
        findWindowsAssetB rel.assets = none →
        getReleaseInfoB repo v http dl sha = (.error .assetNotFound, []))
  ∧ (∀ owner repo v http dl sha (rel : Release) (a : Asset),
        http (releaseApiUrlA owner repo v) = .ok rel →
        findWindowsAssetA rel.assets = some a →
        (getReleaseInfoA owner repo v http dl sha).2 = [a.browser_download_url])
  ∧ (∀ repo v http dl sha (rel : Release) (a : Asset),
        http (releaseApiUrlB repo v) = .ok rel →
        findWindowsAssetB rel.assets = some a →
        (getReleaseInfoB repo v http dl sha).2 = [a.browser_download_url]) := by
  refine ⟨?_, ?_, ?_, ?_, ?_, ?_, ?_, ?_⟩
  · intro assets a h
    rw [findWindowsAssetA] at h
    obtain ⟨hb, i, hi, hget, hjs⟩ := List.find?_eq_some_iff_getElem.mp h
    exact ⟨hb, i, hi, hget, fun j hj => by simpa using hjs j hj⟩
  · intro assets h
    rw [findWindowsAssetA]
    exact List.find?_eq_none.mpr (fun x hx => by rw [h x hx]; exact Bool.false_ne_true)
  · intro assets a h
    rw [findWindowsAssetB] at h
    obtain ⟨hb, i, hi, hget, hjs⟩ := List.find?_eq_some_iff_getElem.mp h
    exact ⟨hb, i, hi, hget, fun j hj => by simpa using hjs j hj⟩
  · intro assets h
    rw [findWindowsAssetB]
    exact List.find?_eq_none.mpr (fun x hx => by rw [h x hx]; exact Bool.false_ne_true)
  · intro owner repo v http dl sha rel h h2
    exact griA_no_asset owner repo v http dl sha rel h h2
  · intro repo v http dl sha rel h h2
    exact griB_no_asset repo v http dl sha rel h h2
  · intro owner repo v http dl sha rel a h h2
    exact griA_downloads owner repo v http dl sha rel a h h2
  · intro repo v http dl sha rel a h h2
    exact griB_downloads repo v http dl sha rel a h h2

/-- Witness for C2: with a Linux-only asset list, variant B's resolver
fails with the asset-not-found error and issues no download. -/
theorem c2_asset_selection_witness :
    getReleaseInfoB "o/r" "1.0" (httpConst exReleaseLinux) (dlConst [0]) (shaConst "d")
      = (.error .assetNotFound, []) :=
  c2_asset_selection.2.2.2.2.2.1 "o/r" "1.0" (httpConst exReleaseLinux) (dlConst [0])
    (shaConst "d") exReleaseLinux rfl rfl

/-- Claim C9 counterexample: the new version `0.0.34` does not occur literally in
the filename `app-0.0.33-windows-amd64.zip` (which embeds the previous
version), so the substitution is a no-op: the derived template filename is
the unchanged `app-0.0.33-windows-amd64.zip`, not
`app-$version-windows-amd64.zip`. -/
theorem c9_counterexample :
    templateAssetName
        "https://github.com/o/r/releases/download/0.0.34/app-0.0.33-windows-amd64.zip"
        "0.0.34"
      = "app-0.0.33-windows-amd64.zip" ∧
    ("app-0.0.33-windows-amd64.zip" : String) ≠ "app-$version-windows-amd64.zip" :=
  ⟨rfl, by decide⟩

/-- Claim C9 amended: for an asset filename embedding the new version —
`app-0.0.34-windows-amd64.zip` with new version `0.0.34` — the derived
template filename is `app-$version-windows-amd64.zip` and the rewritten
autoupdate URL substitutes it in place of the filename; for the filename
`app-0.0.33-windows-amd64.zip` of the claim, which embeds the old version,
the substitution is a silent no-op. -/
theorem c9_template :
    templateAssetName
        "https://github.com/o/r/releases/download/0.0.34/app-0.0.34-windows-amd64.zip"
        "0.0.34"
      = "app-$version-windows-amd64.zip" ∧
    autoupdateUrl
        "https://github.com/o/r/releases/download/0.0.34/app-0.0.34-windows-amd64.zip"
        "0.0.34"
      = "https://github.com/o/r/releases/download/0.0.34/app-$version-windows-amd64.zip" ∧
    templateAssetName
        "https://github.com/o/r/releases/download/0.0.34/app-0.0.33-windows-amd64.zip"
        "0.0.34"
      = "app-0.0.33-windows-amd64.zip" :=
  ⟨rfl, rfl, rfl⟩

/-- Claim C10: both `replace` calls of the autoupdate block rewrite only
the first occurrence of their pattern — `firstOcc` returns the least
matching position, and the text before and after that occurrence (later
occurrences included) is carried over verbatim.  The inserted replacement
is the constant `$version` for the filename template (the sequence `$v` is
not a `GetSubstitution` escape, so it is literal), and for the URL rewrite
it is the templated filename processed by `GetSubstitution` — inserted
verbatim whenever it contains no dollar sign. -/
theorem c10_first_occurrence :
    (∀ (pat s : List Char) (i : Nat), firstOcc pat s = some i →
        pat.isPrefixOf (s.drop i) = true ∧
          ∀ j, j < i → pat.isPrefixOf (s.drop j) = false)
  ∧ (∀ (assetUrl v : String) (i : Nat),
        firstOcc v.toList (lastSeg assetUrl).toList = some i →
        (templateAssetName assetUrl v).toList =
          (lastSeg assetUrl).toList.take i ++ "$version".toList ++
            (lastSeg assetUrl).toList.drop (i + v.toList.length))
  ∧ (∀ (assetUrl v : String) (i : Nat),
        firstOcc (lastSeg assetUrl).toList assetUrl.toList = some i →
        (autoupdateUrl assetUrl v).toList =
          assetUrl.toList.take i ++
            getSubstitution (lastSeg assetUrl).toList (assetUrl.toList.take i)
              (assetUrl.toList.drop (i + (lastSeg assetUrl).toList.length))
              ((templateAssetName assetUrl v).toList) ++
            assetUrl.toList.drop (i + (lastSeg assetUrl).toList.length))
  ∧ (∀ (assetUrl v : String) (i : Nat),
        firstOcc (lastSeg assetUrl).toList assetUrl.toList = some i →
        '$' ∉ (templateAssetName assetUrl v).toList →
        (autoupdateUrl assetUrl v).toList =
          assetUrl.toList.take i ++ (templateAssetName assetUrl v).toList ++
            assetUrl.toList.drop (i + (lastSeg assetUrl).toList.length)) := by
  refine ⟨firstOcc_least, ?_, ?_, ?_⟩
  · intro assetUrl v i h
    show jsReplaceList v.toList ("$version".toList) (lastSeg assetUrl).toList = _
    simp only [jsReplaceList, h]
    rfl
  · intro assetUrl v i h
    show jsReplaceList (lastSeg assetUrl).toList
        ((templateAssetName assetUrl v).toList) assetUrl.toList = _
    simp only [jsReplaceList, h]
  · intro assetUrl v i h hd
    show jsReplaceList (lastSeg assetUrl).toList
        ((templateAssetName assetUrl v).toList) assetUrl.toList = _
    simp only [jsReplaceList, h]
    rw [getSubstitution_no_dollar _ _ _ _ hd]

/-- Witness for C10: in `app-1.1-1.1.zip` with version `1.1`, only the
first `1.1` (at index 4) becomes `$version`; the second stays literal. -/
theorem c10_first_occurrence_witness :
    (templateAssetName "https://h/app-1.1-1.1.zip" "1.1").toList =
      ("app-1.1-1.1.zip".toList.take 4) ++ "$version".toList ++
        ("app-1.1-1.1.zip".toList.drop 7) :=
  c10_first_occurrence.2.1 "https://h/app-1.1-1.1.zip" "1.1" 4 rfl

/-- A full manifest in the shape of the repository's `soundcheck` example. -/
def cmA_fields : List (String × Json) :=
  [("version", .str "0.0.33"), ("description", .str "tool"),
   ("homepage", .str "https://old.example"), ("license", .str "MIT"),
   ("url", .str "https://old.example/app.zip"), ("hash", .str "00"),
   ("bin", .str "app.exe"),
   ("checkver", .obj [("github", .str "https://old.example")]),
   ("autoupdate", .obj [("url", .str "https://old.example/app-$version.zip"),
                        ("hash", .obj [("url", .str "https://old.example/app.zip.sha256")])])]

/-- The manifest above as a document. -/
def cmA : Json := .obj cmA_fields

/-- Concrete release data for variant A. -/
def criA : ReleaseInfo :=
  { version := "0.0.34", repoUrl := "https://github.com/o/r",
    releaseUrl := "https://github.com/o/r/releases/tag/0.0.34",
    assetUrl := "https://github.com/o/r/releases/download/0.0.34/app-0.0.34-windows-amd64.zip",
    hash := "ff" }

/-- The document variant A's updater produces from `cmA` and `criA`. -/
def cmA_upd : Json :=
  match updateFieldsA cmA "0.0.34" criA with
  | .ok m => m
  | .error _ => .null

/-- A small manifest with an `autoupdate` object, for variant B. -/
def cmB_fields : List (String × Json) :=
  [("version", .str "1"), ("url", .str "https://old.example/app-1.zip"),
   ("hash", .str "00"), ("autoupdate", .obj [("url", .str "old")])]

/-- The manifest above as a document. -/
def cmB : Json := .obj cmB_fields

/-- Concrete release data for variant B. -/
def criB : ReleaseInfoB :=
  { version := "2", releaseUrl := "https://github.com/o/r/releases/tag/2",
    assetUrl := "https://h/r/app-2.zip", hash := "hh" }

/-- The document variant B's updater produces from `cmB` and `criB`. -/
def cmB_upd : Json :=
  match updateFieldsB cmB "2" criB with
  | .ok m => m
  | .error _ => .null

/-- Claim C1 counterexample: a successful run also rewrites `autoupdate.url`,
which is not among the claim's excepted fields (`version`, `url`, `hash`,
`homepage`, `checkver.github`): after the run it differs from its original
value, so not all other keys are preserved. -/
theorem c1_counterexample :
    updateFieldsB cmB "2" criB = .ok cmB_upd ∧
    getPath cmB ["autoupdate", "url"] = some (.str "old") ∧
    getPath cmB_upd ["autoupdate", "url"] = some (.str "https://h/r/app-$version.zip") ∧
    ("https://h/r/app-$version.zip" : String) ≠ "old" :=
  ⟨rfl, rfl, rfl, by decide⟩

/-- Claim C1 amended: after a successful run the written document agrees with
the original on every path independent of the updated ones — `version`,
`homepage`, `url`, `checkver.github`, `hash`, `autoupdate.url` and
`autoupdate.hash.url` for variant A; `version`, `url`, `hash`,
`autoupdate.url` and `autoupdate.hash.url` for variant B — and the file
content written on success is exactly the document serialised with
two-space indentation plus a single trailing newline. -/
theorem c1_frame :
    (∀ m v ri m', updateFieldsA m v ri = .ok m' →
        ∀ p, untouchedBy pathsA p = true → getPath m' p = getPath m p)
  ∧ (∀ m v ri m', updateFieldsB m v ri = .ok m' →
        ∀ p, untouchedBy pathsB p = true → getPath m' p = getPath m p)
  ∧ (∀ fileOk parsed owner repo v http dl sha w,
        (runUpdateA fileOk parsed owner repo v http dl sha).written = some w →
        ∃ m ri m', parsed = some m
          ∧ (getReleaseInfoA owner repo v http dl sha).1 = .ok ri
          ∧ updateFieldsA m v ri = .ok m'
          ∧ w = stringifyVal 0 m' ++ "\n")
  ∧ (∀ fileOk parsed repo v http dl sha w,
        (runUpdateB fileOk parsed repo v http dl sha).written = some w →
        ∃ m ri m', parsed = some m
          ∧ (getReleaseInfoB repo v http dl sha).1 = .ok ri
          ∧ updateFieldsB m v ri = .ok m'
          ∧ w = stringifyVal 0 m' ++ "\n") := by
  refine ⟨updateFieldsA_frame, updateFieldsB_frame, ?_, ?_⟩
  · intro fileOk parsed owner repo v http dl sha w h
    cases fileOk with
    | false => exact Option.noConfusion h
    | true =>
      cases parsed with
      | none => exact Option.noConfusion h
      | some m =>
        cases hg : (getReleaseInfoA owner repo v http dl sha).1 with
        | error e =>
          simp only [runUpdateA, hg] at h
          exact Option.noConfusion h
        | ok ri =>
          cases hu : updateFieldsA m v ri with
          | error e =>
            simp only [runUpdateA, hg, hu] at h
            exact Option.noConfusion h
          | ok m' =>
            simp only [runUpdateA, hg, hu] at h
            injection h with h2
            exact ⟨m, ri, m', rfl, rfl, hu, h2.symm⟩
  · intro fileOk parsed repo v http dl sha w h
    cases fileOk with
    | false => exact Option.noConfusion h
    | true =>
      cases parsed with
      | none => exact Option.noConfusion h
      | some m =>
        cases hg : (getReleaseInfoB repo v http dl sha).1 with
        | error e =>
          simp only [runUpdateB, hg] at h
          exact Option.noConfusion h
        | ok ri =>
          cases hu : updateFieldsB m v ri with
          | error e =>
            simp only [runUpdateB, hg, hu] at h
            exact Option.noConfusion h
          | ok m' =>
            simp only [runUpdateB, hg, hu] at h
            injection h with h2
            exact ⟨m, ri, m', rfl, rfl, hu, h2.symm⟩

/-- Witness for C1: an untouched key (`description`) reads the same before
and after a successful concrete run of variant A's field updates. -/
theorem c1_frame_witness :
    getPath cmA_upd ["description"] = getPath cmA ["description"] :=
  c1_frame.1 cmA "0.0.34" criA cmA_upd rfl ["description"] rfl

/-- A manifest with a `checkver` object but no `homepage` and no
`checkver.github` key. -/
def cmD_fields : List (String × Json) := [("checkver", .obj [])]

/-- The manifest above as a document. -/
def cmD : Json := .obj cmD_fields

/-- Concrete release data for the C4 counterexample. -/
def criD : ReleaseInfo :=
  { version := "1", repoUrl := "https://github.com/o/r",
    releaseUrl := "https://github.com/o/r/releases/tag/1",
    assetUrl := "https://github.com/o/r/releases/download/1/a.zip", hash := "aa" }

/-- The document variant A's updater produces from `cmD` and `criD`. -/
def cmD_upd : Json :=
  match updateFieldsA cmD "1" criD with
  | .ok m => m
  | .error _ => .null

/-- Claim C4 counterexample: with `homepage` and `checkver.github` absent, a
successful variant-A run does not leave them untouched — it creates both,
set to the repo URL (the assignments are unconditional in the source). -/
theorem c4_counterexample :
    updateFieldsA cmD "1" criD = .ok cmD_upd ∧
    getPath cmD ["homepage"] = none ∧
    getPath cmD_upd ["homepage"] = some (.str "https://github.com/o/r") ∧
    getPath cmD ["checkver", "github"] = none ∧
    getPath cmD_upd ["checkver", "github"] = some (.str "https://github.com/o/r") :=
  ⟨rfl, rfl, rfl, rfl, rfl⟩

/-- Claim C4 amended: in variant A (the variant with a resolved repo URL) a
successful run always sets `homepage` to `ReleaseInfo.repoUrl`, creating
the key when absent; whenever `checkver` is an object, it likewise sets
`checkver.github`, creating that key when absent; when `checkver` itself
is absent or null the run fails with a type error before writing.
Variant B never
touches `homepage` or `checkver.github`. -/
theorem c4_homepage_checkver :
    (∀ fs v ri m', updateFieldsA (.obj fs) v ri = .ok m' →
        getPath m' ["homepage"] = some (.str ri.repoUrl))
  ∧ (∀ fs cfs v ri m', updateFieldsA (.obj fs) v ri = .ok m' →
        getKey fs "checkver" = some (.obj cfs) →
        getPath m' ["checkver", "github"] = some (.str ri.repoUrl))
  ∧ (∀ fs v ri, getKey fs "checkver" = none →
        updateFieldsA (.obj fs) v ri = .error .typeError)
  ∧ (∀ fs v ri, getKey fs "checkver" = some .null →
        updateFieldsA (.obj fs) v ri = .error .typeError)
  ∧ (∀ m v ri m', updateFieldsB m v ri = .ok m' →
        getPath m' ["homepage"] = getPath m ["homepage"] ∧
        getPath m' ["checkver", "github"] = getPath m ["checkver", "github"]) := by
  refine ⟨?_, ?_, ?_, ?_, ?_⟩
  · intro fs v ri m' h
    simp only [updateFieldsA] at h
    cases hck : getKey (setKey (setKey (setKey fs "version" (.str v)) "homepage"
        (.str ri.repoUrl)) "url" (.str ri.assetUrl)) "checkver" with
    | none => simp only [hck] at h; exact Except.noConfusion h
    | some cv =>
      have hhome : ∀ fs5 : List (String × Json),
          getKey fs5 "homepage" = some (.str ri.repoUrl) →
          getPath (.obj (applyAutoupdateFields fs5 ri.assetUrl v)) ["homepage"]
            = some (.str ri.repoUrl) := by
        intro fs5 h5
        have : getKey (applyAutoupdateFields fs5 ri.assetUrl v) "homepage"
            = some (.str ri.repoUrl) := by
          rw [getKey_applyAutoupdate_ne _ _ _ _ (by decide)]
          exact h5
        simp only [getPath, this]
      cases cv with
      | obj cfs =>
        simp only [hck] at h
        injection h with h2
        subst h2
        refine hhome _ ?_
        rw [getKey_setKey_ne _ _ _ _ (by decide), getKey_setKey_ne _ _ _ _ (by decide),
            getKey_setKey_ne _ _ _ _ (by decide), getKey_setKey_self]
      | null => simp only [hck] at h; exact Except.noConfusion h
      | bool b =>
        simp only [hck] at h
        injection h with h2
        subst h2
        refine hhome _ ?_
        rw [getKey_setKey_ne _ _ _ _ (by decide), getKey_setKey_ne _ _ _ _ (by decide),
            getKey_setKey_self]
      | num n =>
        simp only [hck] at h
        injection h with h2
        subst h2
        refine hhome _ ?_
        rw [getKey_setKey_ne _ _ _ _ (by decide), getKey_setKey_ne _ _ _ _ (by decide),
            getKey_setKey_self]
      | str s =>
        simp only [hck] at h
        injection h with h2
        subst h2
        refine hhome _ ?_
        rw [getKey_setKey_ne _ _ _ _ (by decide), getKey_setKey_ne _ _ _ _ (by decide),
            getKey_setKey_self]
      | arr xs =>
        simp only [hck] at h
        injection h with h2
        subst h2
        refine hhome _ ?_
        rw [getKey_setKey_ne _ _ _ _ (by decide), getKey_setKey_ne _ _ _ _ (by decide),
            getKey_setKey_self]
  · intro fs cfs v ri m' h hcv
    have hck : getKey (setKey (setKey (setKey fs "version" (.str v)) "homepage"
        (.str ri.repoUrl)) "url" (.str ri.assetUrl)) "checkver" = some (.obj cfs) := by
      rw [getKey_setKey_ne _ _ _ _ (by decide), getKey_setKey_ne _ _ _ _ (by decide),
          getKey_setKey_ne _ _ _ _ (by decide)]
      exact hcv
    simp only [updateFieldsA, hck] at h
    injection h with h2
    subst h2
    have hcv5 : getKey (applyAutoupdateFields (setKey (setKey (setKey (setKey (setKey fs
        "version" (.str v)) "homepage" (.str ri.repoUrl)) "url" (.str ri.assetUrl))
        "checkver" (.obj (setKey cfs "github" (.str ri.repoUrl)))) "hash" (.str ri.hash))
        ri.assetUrl v) "checkver"
        = some (.obj (setKey cfs "github" (.str ri.repoUrl))) := by
      rw [getKey_applyAutoupdate_ne _ _ _ _ (by decide),
          getKey_setKey_ne _ _ _ _ (by decide), getKey_setKey_self]
    simp only [getPath, hcv5, getKey_setKey_self]
  · intro fs v ri h
    have hck : getKey (setKey (setKey (setKey fs "version" (.str v)) "homepage"
        (.str ri.repoUrl)) "url" (.str ri.assetUrl)) "checkver" = none := by
      rw [getKey_setKey_ne _ _ _ _ (by decide), getKey_setKey_ne _ _ _ _ (by decide),
          getKey_setKey_ne _ _ _ _ (by decide)]
      exact h
    simp only [updateFieldsA, hck]
  · intro fs v ri h
    have hck : getKey (setKey (setKey (setKey fs "version" (.str v)) "homepage"
        (.str ri.repoUrl)) "url" (.str ri.assetUrl)) "checkver" = some .null := by
      rw [getKey_setKey_ne _ _ _ _ (by decide), getKey_setKey_ne _ _ _ _ (by decide),
          getKey_setKey_ne _ _ _ _ (by decide)]
      exact h
    simp only [updateFieldsA, hck]
  · intro m v ri m' h
    exact ⟨updateFieldsB_frame m v ri m' h ["homepage"] rfl,
           updateFieldsB_frame m v ri m' h ["checkver", "github"] rfl⟩

/-- Witness for C4: `homepage` after the concrete variant-A run equals the
resolved repo URL. -/
theorem c4_homepage_checkver_witness :
    getPath cmA_upd ["homepage"] = some (.str criA.repoUrl) :=
  c4_homepage_checkver.1 cmA_fields "0.0.34" criA cmA_upd rfl
